import Mathlib

/-!
Verification of the karate-cli artifact acquisition, version resolution and
self-update engine against its natural-language specification.

The Rust sources are shallowly embedded: the filesystem is a finite map from
path strings to byte lists, network responses and archive decoding are
explicit inputs, and every fallible operation returns an `Except` paired with
the resulting filesystem state.
-/

namespace KarateCli

/-- A filesystem path, kept as its plain string form. -/
abbrev Path := String

/-- File contents: a byte sequence. -/
abbrev Content := List Nat

/-- Check whether the first list is an initial segment of the second. -/
def startsWith : List Char → List Char → Bool
  | [], _ => true
  | _, [] => false
  | a :: as, b :: bs => a = b && startsWith as bs

/-- Whether path `p` lies strictly under directory `d` (i.e. `d ++ "/"` starts `p`). -/
def underDir (d : Path) (p : Path) : Bool :=
  startsWith (d ++ "/").data p.data

/-- A flat filesystem: an association list from paths to file contents. -/
structure Fs where
  files : List (Path × Content)
deriving DecidableEq

/-- First-match lookup in the association list. -/
def lookupFs : List (Path × Content) → Path → Option Content
  | [], _ => none
  | e :: rest, p => if e.1 = p then some e.2 else lookupFs rest p

def Fs.lookup (fs : Fs) (p : Path) : Option Content :=
  lookupFs fs.files p

/-- Delete a file (no-op when absent). -/
def Fs.remove (fs : Fs) (p : Path) : Fs :=
  ⟨fs.files.filter (fun e => e.1 != p)⟩

/-- Create or overwrite a file. -/
def Fs.insert (fs : Fs) (p : Path) (c : Content) : Fs :=
  ⟨(p, c) :: (fs.remove p).files⟩

/-- POSIX-style rename: fails exactly when the source does not exist; an existing
destination is overwritten. -/
def Fs.rename (fs : Fs) (src dst : Path) : Except Unit Fs :=
  match fs.lookup src with
  | none => .error ()
  | some c => .ok ((fs.remove src).insert dst c)

/-- Remove a directory tree: every file under `d` disappears (mirrors `remove_dir_all`). -/
def Fs.removeDir (fs : Fs) (d : Path) : Fs :=
  ⟨fs.files.filter (fun e => !(underDir d e.1))⟩

theorem lookupFs_filter_ne (p : Path) (f : Path × Content → Bool)
    (hf : ∀ e : Path × Content, e.1 = p → f e = true) :
    ∀ l : List (Path × Content), lookupFs (l.filter f) p = lookupFs l p := by
  intro l
  induction l with
  | nil => rfl
  | cons e rest ih =>
    by_cases h : e.1 = p
    · have : f e = true := hf e h
      simp [List.filter, this, lookupFs, h]
    · by_cases hfe : f e = true
      · simp [List.filter, hfe, lookupFs, h, ih]
      · simp only [List.filter, Bool.not_eq_true] at hfe
        simp [List.filter, hfe, lookupFs, h, ih]

theorem lookup_remove_self (fs : Fs) (p : Path) : (fs.remove p).lookup p = none := by
  unfold Fs.remove Fs.lookup
  induction fs.files with
  | nil => rfl
  | cons e rest ih =>
    by_cases h : e.1 = p
    · have hb : (e.1 != p) = false := by simp [h]
      simp [List.filter, hb, lookupFs, ih]
    · have hb : (e.1 != p) = true := by simp [h]
      simp [List.filter, hb, lookupFs, h, ih]

theorem lookup_remove_ne (fs : Fs) (p q : Path) (h : q ≠ p) :
    (fs.remove p).lookup q = fs.lookup q := by
  unfold Fs.remove Fs.lookup
  exact lookupFs_filter_ne q _ (fun e he => by simp [he, h]) fs.files

theorem lookup_insert_self (fs : Fs) (p : Path) (c : Content) :
    (fs.insert p c).lookup p = some c := by
  simp [Fs.insert, Fs.lookup, lookupFs]

theorem lookup_insert_ne (fs : Fs) (p q : Path) (c : Content) (h : q ≠ p) :
    (fs.insert p c).lookup q = fs.lookup q := by
  have h' : p ≠ q := fun hh => h hh.symm
  simp only [Fs.insert, Fs.lookup, lookupFs, h', if_false]
  exact lookup_remove_ne fs p q h

theorem lookup_removeDir_ne (fs : Fs) (d q : Path) (h : underDir d q = false) :
    (fs.removeDir d).lookup q = fs.lookup q := by
  unfold Fs.removeDir Fs.lookup
  exact lookupFs_filter_ne q _ (fun e he => by simp [he, h]) fs.files

theorem startsWith_append (l t : List Char) : startsWith l (l ++ t) = true := by
  induction l with
  | nil => simp [startsWith]
  | cons a as ih => simp [startsWith, ih]

theorem data_append (a b : String) : (a ++ b).data = a.data ++ b.data := by
  cases a; cases b; rfl

theorem underDir_append (d : Path) (rest : String) :
    underDir d (d ++ "/" ++ rest) = true := by
  unfold underDir
  rw [data_append (d ++ "/") rest]
  exact startsWith_append (d ++ "/").data rest.data

/-! Path extension handling, mirroring Rust's `Path::with_extension`. -/

/-- File stem of a file name: the part before the last dot, except that a name
with no dot, or whose only dot is the leading character, is its own stem. -/
def fileStem (name : List Char) : List Char :=
  let r := name.reverse
  let afterRev := r.takeWhile (fun c => c != '.')
  if afterRev.length = name.length then name
  else
    let stemRev := r.drop (afterRev.length + 1)
    if stemRev = [] then name else stemRev.reverse

/-- Split a path into its directory part (trailing slash included) and its
final component. -/
def splitLastComponent (p : Path) : List Char × List Char :=
  let r := p.data.reverse
  let fileRev := r.takeWhile (fun c => c != '/')
  ((r.drop fileRev.length).reverse, fileRev.reverse)

/-- Rust `Path::with_extension ext`: replace (or add) the extension of the
final path component. -/
def withExt (p : Path) (ext : String) : Path :=
  let dc := splitLastComponent p
  String.mk (dc.1 ++ fileStem dc.2 ++ ('.' :: ext.data))

/-! Hex encoding of a digest, mirroring `hex::encode` (lowercase), and the
ASCII fragment of Rust's `str::to_lowercase` (checksums are ASCII hex, where
Unicode lowercasing agrees with the ASCII one). -/

def hexChar (n : Nat) : Char :=
  if n < 10 then Char.ofNat (48 + n) else Char.ofNat (87 + n)

def hexEncode (bs : Content) : String :=
  String.mk (bs.map (fun b => [hexChar (b / 16 % 16), hexChar (b % 16)])).flatten

def lowerChar (c : Char) : Char :=
  if 65 ≤ c.toNat ∧ c.toNat ≤ 90 then Char.ofNat (c.toNat + 32) else c

def asciiLower (s : String) : String :=
  String.mk (s.data.map lowerChar)

theorem lowerChar_hexChar (n : Nat) (h : n < 16) : lowerChar (hexChar n) = hexChar n := by
  interval_cases n <;> decide

/-- The hex encoding of a digest is already lowercase. -/
theorem asciiLower_hexEncode (bs : Content) : asciiLower (hexEncode bs) = hexEncode bs := by
  unfold asciiLower hexEncode
  congr 1
  simp only [String.data]
  rw [List.map_flatten, List.map_map]
  apply congrArg
  apply List.map_congr_left
  intro b _
  simp only [Function.comp, List.map]
  rw [lowerChar_hexChar _ (Nat.mod_lt _ (by norm_num)),
      lowerChar_hexChar _ (Nat.mod_lt _ (by norm_num))]

/-! Download and integrity (src/download.rs, `download_file`).

The HTTP response is an explicit input: a status code and the body as a list
of chunk outcomes (a chunk either arrives or the stream fails). SHA-256 is an
abstract digest oracle `sha : Content → Content`; its hex rendering is the
concrete `hexEncode` above. -/

inductive DlError
  /-- Non-2xx response status. -/
  | network (status : Nat)
  /-- A body chunk failed to arrive. -/
  | chunkFailed
  /-- `ChecksumMismatch \x7bpath, expected, actual\x7d`. -/
  | checksumMismatch (path : Path) (expected actual : String)
  /-- The final rename of the temporary file onto the destination failed. -/
  | renameFailed
deriving DecidableEq

deriving instance DecidableEq for Except

structure HttpResponse where
  status : Nat
  chunks : List (Except Unit Content)

/-- Write the streamed chunks into the open temporary file, returning the
final filesystem, the bytes fed to the digest accumulator, and whether the
stream completed. Stops at the first failed chunk, leaving the partial
temporary file in place (as the `?` early return in the source does). -/
def writeChunks (fs : Fs) (tmp : Path) (buf : Content) :
    List (Except Unit Content) → Fs × Content × Bool
  | [] => (fs, buf, true)
  | .error _ :: _ => (fs, buf, false)
  | .ok c :: rest => writeChunks (fs.insert tmp (buf ++ c)) tmp (buf ++ c) rest

/-- The content obtained by concatenating the chunks of a fully successful
stream. -/
def flatChunks : List (Except Unit Content) → Content
  | [] => []
  | .ok c :: rest => c ++ flatChunks rest
  | .error _ :: _ => []

/-- Whether every chunk of the body arrived. -/
def chunksOk : List (Except Unit Content) → Bool
  | [] => true
  | .ok _ :: rest => chunksOk rest
  | .error _ :: _ => false

/-- Tail of `download_file` after the streaming loop, on the loop's result
`r = (filesystem, hashed bytes, stream completed)`: fail on an incomplete
stream; when a checksum was supplied compare the finalized lowercase hex
digest against the lowercased expectation, deleting the temporary file and
failing on mismatch; otherwise rename the temporary file onto `dest`. -/
def dlFinish (sha : Content → Content) (dest : Path) (expected : Option String)
    (r : Fs × Content × Bool) : Except DlError Unit × Fs :=
  if r.2.2 = false then (.error .chunkFailed, r.1)
  else
    match expected with
    | some e =>
      if hexEncode (sha r.2.1) ≠ asciiLower e then
        (.error (.checksumMismatch dest e (hexEncode (sha r.2.1))),
          r.1.remove (withExt dest "tmp"))
      else
        match r.1.rename (withExt dest "tmp") dest with
        | .ok fs3 => (.ok (), fs3)
        | .error _ => (.error .renameFailed, r.1)
    | none =>
      match r.1.rename (withExt dest "tmp") dest with
      | .ok fs3 => (.ok (), fs3)
      | .error _ => (.error .renameFailed, r.1)

/-- Model of `download_file(url, dest, expected_sha256)`: reject a non-2xx
status, create the temporary file `dest.with_extension("tmp")`, stream the
body into it while hashing, then finish per `dlFinish`. -/
def downloadFile (sha : Content → Content) (resp : HttpResponse)
    (dest : Path) (expected : Option String) (fs : Fs) :
    Except DlError Unit × Fs :=
  if 200 ≤ resp.status ∧ resp.status < 300 then
    dlFinish sha dest expected
      (writeChunks (fs.insert (withExt dest "tmp") []) (withExt dest "tmp") [] resp.chunks)
  else
    (.error (.network resp.status), fs)

/-- Invariant of the streaming loop: the temporary file always holds exactly
the bytes accumulated so far, and on a fully successful stream those bytes
are `buf ++ flatChunks chunks`. -/
theorem writeChunks_allOk (tmp : Path) :
    ∀ (chunks : List (Except Unit Content)) (fs : Fs) (buf : Content),
      chunksOk chunks = true → fs.lookup tmp = some buf →
      writeChunks fs tmp buf chunks =
        ((writeChunks fs tmp buf chunks).1, buf ++ flatChunks chunks, true) ∧
      ((writeChunks fs tmp buf chunks).1).lookup tmp = some (buf ++ flatChunks chunks) := by
  intro chunks
  induction chunks with
  | nil =>
    intro fs buf _ hlook
    simp [writeChunks, flatChunks, hlook]
  | cons c rest ih =>
    intro fs buf hok hlook
    cases c with
    | error e => simp [chunksOk] at hok
    | ok c =>
      simp only [chunksOk] at hok
      have hl : (fs.insert tmp (buf ++ c)).lookup tmp = some (buf ++ c) :=
        lookup_insert_self fs tmp (buf ++ c)
      have h := ih (fs.insert tmp (buf ++ c)) (buf ++ c) hok hl
      simp only [writeChunks, flatChunks]
      refine ⟨?_, ?_⟩
      · rw [h.1]
        simp [List.append_assoc]
      · rw [h.2]
        simp [List.append_assoc]

/-- The streaming loop touches no path other than the temporary file. -/
theorem writeChunks_frame (tmp p : Path) (hne : p ≠ tmp) :
    ∀ (chunks : List (Except Unit Content)) (fs : Fs) (buf : Content),
      ((writeChunks fs tmp buf chunks).1).lookup p = fs.lookup p := by
  intro chunks
  induction chunks with
  | nil => intro fs buf; rfl
  | cons c rest ih =>
    intro fs buf
    cases c with
    | error e => rfl
    | ok c =>
      simp only [writeChunks]
      rw [ih]
      exact lookup_insert_ne fs tmp p (buf ++ c) hne

/-- A successful rename leaves every other path untouched. -/
theorem rename_frame (fs fs' : Fs) (src dst p : Path) (hsrc : p ≠ src) (hdst : p ≠ dst)
    (h : fs.rename src dst = .ok fs') : fs'.lookup p = fs.lookup p := by
  unfold Fs.rename at h
  cases hc : fs.lookup src with
  | none => rw [hc] at h; exact absurd h (by simp)
  | some c =>
    rw [hc] at h
    injection h with h
    subst h
    rw [lookup_insert_ne _ dst p c hdst, lookup_remove_ne fs src p hsrc]

/-- The post-stream phase touches no path other than the destination and the
temporary file. -/
theorem dlFinish_frame (sha : Content → Content) (dest : Path)
    (expected : Option String) (r : Fs × Content × Bool) (p : Path)
    (hdest : p ≠ dest) (htmp : p ≠ withExt dest "tmp") :
    (dlFinish sha dest expected r).2.lookup p = r.1.lookup p := by
  unfold dlFinish
  by_cases hb : r.2.2 = false
  · simp [hb]
  · rw [if_neg hb]
    cases expected with
    | none =>
      dsimp only
      cases hr : r.1.rename (withExt dest "tmp") dest with
      | ok fs3 =>
        simp only [hr]
        exact rename_frame r.1 fs3 _ dest p htmp hdest hr
      | error e => simp [hr]
    | some e =>
      dsimp only
      by_cases hm : hexEncode (sha r.2.1) ≠ asciiLower e
      · rw [if_pos hm]
        exact lookup_remove_ne r.1 (withExt dest "tmp") p htmp
      · rw [if_neg hm]
        cases hr : r.1.rename (withExt dest "tmp") dest with
        | ok fs3 =>
          simp only [hr]
          exact rename_frame r.1 fs3 _ dest p htmp hdest hr
        | error er => simp [hr]

/-- `download_file` touches no path other than the destination and its
temporary sibling. -/
theorem downloadFile_frame (sha : Content → Content) (resp : HttpResponse)
    (dest : Path) (expected : Option String) (fs : Fs) (p : Path)
    (hdest : p ≠ dest) (htmp : p ≠ withExt dest "tmp") :
    (downloadFile sha resp dest expected fs).2.lookup p = fs.lookup p := by
  unfold downloadFile
  by_cases hs : 200 ≤ resp.status ∧ resp.status < 300
  · rw [if_pos hs]
    rw [dlFinish_frame sha dest expected _ p hdest htmp]
    rw [writeChunks_frame (withExt dest "tmp") p htmp resp.chunks]
    exact lookup_insert_ne fs (withExt dest "tmp") p [] htmp
  · rw [if_neg hs]

/-- On a complete 2xx stream whose digest fails the (case-sensitive, against
the lowercased expectation — the actual digest being lowercase hex this is the
case-insensitive comparison) check, `download_file` returns the
checksum-mismatch error and deletes the temporary file, leaving everything
else exactly as the streaming loop left it. -/
theorem download_mismatch (sha : Content → Content) (resp : HttpResponse) (dest : Path)
    (e : String) (fs : Fs)
    (hs : 200 ≤ resp.status ∧ resp.status < 300)
    (hok : chunksOk resp.chunks = true)
    (hm : hexEncode (sha (flatChunks resp.chunks)) ≠ asciiLower e) :
    downloadFile sha resp dest (some e) fs =
      (.error (.checksumMismatch dest e (hexEncode (sha (flatChunks resp.chunks)))),
        ((writeChunks (fs.insert (withExt dest "tmp") []) (withExt dest "tmp") []
          resp.chunks).1).remove (withExt dest "tmp")) := by
  have h := writeChunks_allOk (withExt dest "tmp") resp.chunks
    (fs.insert (withExt dest "tmp") []) [] hok (lookup_insert_self fs _ [])
  unfold downloadFile
  rw [if_pos hs, h.1]
  unfold dlFinish
  simp only [List.nil_append]
  rw [if_neg (by simp)]
  rw [if_pos hm]

/-- On a complete 2xx stream with no checksum supplied, `download_file`
succeeds and publishes the transferred bytes at the destination. -/
theorem download_nochecksum (sha : Content → Content) (resp : HttpResponse) (dest : Path)
    (fs : Fs)
    (hs : 200 ≤ resp.status ∧ resp.status < 300)
    (hok : chunksOk resp.chunks = true) :
    downloadFile sha resp dest none fs =
      (.ok (),
        (((writeChunks (fs.insert (withExt dest "tmp") []) (withExt dest "tmp") []
          resp.chunks).1).remove (withExt dest "tmp")).insert dest
          (flatChunks resp.chunks)) := by
  have h := writeChunks_allOk (withExt dest "tmp") resp.chunks
    (fs.insert (withExt dest "tmp") []) [] hok (lookup_insert_self fs _ [])
  have hlook := h.2
  rw [List.nil_append] at hlook
  unfold downloadFile
  rw [if_pos hs, h.1]
  unfold dlFinish
  simp only [List.nil_append]
  rw [if_neg (by simp)]
  unfold Fs.rename
  rw [hlook]

/-- C1: a download with a supplied checksum whose streamed content hashes to a
digest differing case-insensitively from the expectation fails with the
checksum-mismatch error carrying path, expected and actual digest; the
temporary file is removed and the destination does not exist afterward if it
did not exist before. A download with no checksum whose stream succeeds
leaves the destination holding exactly the transferred bytes. -/
theorem download_checksum_spec :
    (∀ (sha : Content → Content) (resp : HttpResponse) (dest : Path) (e : String) (fs : Fs),
      200 ≤ resp.status ∧ resp.status < 300 →
      chunksOk resp.chunks = true →
      asciiLower (hexEncode (sha (flatChunks resp.chunks))) ≠ asciiLower e →
      (downloadFile sha resp dest (some e) fs).1 =
        .error (.checksumMismatch dest e (hexEncode (sha (flatChunks resp.chunks)))) ∧
      (downloadFile sha resp dest (some e) fs).2.lookup (withExt dest "tmp") = none ∧
      (fs.lookup dest = none →
        (downloadFile sha resp dest (some e) fs).2.lookup dest = none)) ∧
    (∀ (sha : Content → Content) (resp : HttpResponse) (dest : Path) (fs : Fs),
      200 ≤ resp.status ∧ resp.status < 300 →
      chunksOk resp.chunks = true →
      (downloadFile sha resp dest none fs).1 = .ok () ∧
      (downloadFile sha resp dest none fs).2.lookup dest =
        some (flatChunks resp.chunks)) := by
  constructor
  · intro sha resp dest e fs hs hok hm
    rw [asciiLower_hexEncode] at hm
    have heq := download_mismatch sha resp dest e fs hs hok hm
    refine ⟨by rw [heq], ?_, ?_⟩
    · rw [heq]
      exact lookup_remove_self _ _
    · intro hnone
      rw [heq]
      by_cases hd : dest = withExt dest "tmp"
      · rw [← hd]
        exact lookup_remove_self _ _
      · rw [lookup_remove_ne _ _ _ hd,
          writeChunks_frame (withExt dest "tmp") dest hd resp.chunks,
          lookup_insert_ne fs _ dest [] hd]
        exact hnone
  · intro sha resp dest fs hs hok
    have heq := download_nochecksum sha resp dest fs hs hok
    refine ⟨by rw [heq], ?_⟩
    rw [heq]
    exact lookup_insert_self _ _ _

/-- Witness for C1 at concrete inputs: the digest oracle maps the single-chunk
body to byte `0xAB`, rendered `ab`, which differs case-insensitively from the
expected checksum `BB`; and a checksum-free download of the chunk `[1, 2]`
publishes exactly `[1, 2]` at the destination. -/
theorem download_checksum_spec_witness :
    ((downloadFile (fun _ => [171]) ⟨200, [.ok [1, 2]]⟩ "d/f.jar" (some "BB")
        ⟨[]⟩).1 = .error (.checksumMismatch "d/f.jar" "BB" "ab") ∧
      (downloadFile (fun _ => [171]) ⟨200, [.ok [1, 2]]⟩ "d/f.jar" (some "BB")
        ⟨[]⟩).2.lookup (withExt "d/f.jar" "tmp") = none ∧
      ((Fs.mk []).lookup "d/f.jar" = none →
        (downloadFile (fun _ => [171]) ⟨200, [.ok [1, 2]]⟩ "d/f.jar" (some "BB")
          ⟨[]⟩).2.lookup "d/f.jar" = none)) ∧
    ((downloadFile (fun _ => [171]) ⟨200, [.ok [1, 2]]⟩ "d/g.jar" none
        ⟨[]⟩).1 = .ok () ∧
      (downloadFile (fun _ => [171]) ⟨200, [.ok [1, 2]]⟩ "d/g.jar" none
        ⟨[]⟩).2.lookup "d/g.jar" = some (flatChunks [.ok [1, 2]])) :=
  ⟨download_checksum_spec.1 (fun _ => [171]) ⟨200, [.ok [1, 2]]⟩ "d/f.jar" "BB" ⟨[]⟩
      (by decide) (by decide) (by decide),
    download_checksum_spec.2 (fun _ => [171]) ⟨200, [.ok [1, 2]]⟩ "d/g.jar" ⟨[]⟩
      (by decide) (by decide)⟩

/-! Runtime discovery (src/jre.rs). -/

/-- Minimum Java major version required (src/jre.rs). -/
def MIN_JAVA_VERSION : Nat := 21

inductive JreSource
  | managed
  | javaHome
  | path
deriving DecidableEq

structure InstalledJre where
  version : String
  platform : String
  source : JreSource
  majorVersion : Option Nat
deriving DecidableEq

/-- Rust `str::parse::<u8>()`: an optional leading plus sign, then one or more
ASCII digits, with the value below 256. -/
def parseU8 (s : List Char) : Option Nat :=
  let digits :=
    match s with
    | '+' :: rest => rest
    | _ => s
  if digits = [] then none
  else if digits.all (fun c => c.isDigit) then
    let v := digits.foldl (fun acc c => acc * 10 + (c.toNat - 48)) 0
    if v < 256 then some v else none
  else none

/-- Rust `str::split('.')` on the character list of a version string. -/
def splitDots : List Char → List (List Char)
  | [] => [[]]
  | '.' :: rest => [] :: splitDots rest
  | c :: rest =>
    match splitDots rest with
    | [] => [[c]]
    | part :: parts => (c :: part) :: parts

/-- `parse_major_version`: the first dot-separated component parsed as `u8`,
with the legacy rule that a leading `1` defers to the second component. -/
def parse_major_version (version : String) : Option Nat :=
  match (splitDots version.data).head? with
  | none => none
  | some firstPart =>
    match parseU8 firstPart with
    | none => none
    | some major =>
      if major = 1 then
        match (splitDots version.data)[1]? with
        | none => none
        | some second => parseU8 second
      else some major

/-- `InstalledJre::meets_minimum_version`. -/
def meets_minimum_version (jre : InstalledJre) : Bool :=
  (jre.majorVersion.map (fun v => decide (v ≥ MIN_JAVA_VERSION))).getD false

/-- Discovery environment: the managed entries produced by
`list_installed_jres` paired with their `is_valid` probe outcome (executable
exists and answers the version probe), plus the results of `check_java_home`
(`none` when `JAVA_HOME` is unset, has no executable at `bin/java`, or its
version output is unparseable) and `check_java_on_path`. -/
structure JreEnv where
  platformKey : String
  managed : List (InstalledJre × Bool)
  javaHome : Option InstalledJre
  onPath : Option InstalledJre

/-- `find_system_jre`: the `JAVA_HOME` candidate when it yields an
installation, otherwise the `PATH` candidate. -/
def find_system_jre (env : JreEnv) : Option InstalledJre :=
  match env.javaHome with
  | some jre => some jre
  | none => env.onPath

/-- `find_active_jre`: first managed entry matching the current platform key
whose probe succeeded (no version floor), else the system candidate provided
it meets the minimum version floor. -/
def find_active_jre (env : JreEnv) : Option InstalledJre :=
  match env.managed.find? (fun me => me.1.platform == env.platformKey && me.2) with
  | some me => some me.1
  | none =>
    match find_system_jre env with
    | some systemJre =>
      if meets_minimum_version systemJre then some systemJre else none
    | none => none

/-- C7: major-version extraction: `"21.0.9"` yields 21; the legacy form
`"1.8.0_301"` yields 8; a string whose leading dot-component is not a
parseable numeral yields no major version; and a candidate with no major
version fails the minimum-version check. -/
theorem parse_major_version_spec :
    parse_major_version "21.0.9" = some 21 ∧
    parse_major_version "1.8.0_301" = some 8 ∧
    (∀ (v : String) (part : List Char),
      (splitDots v.data).head? = some part → parseU8 part = none →
      parse_major_version v = none) ∧
    (∀ jre : InstalledJre, jre.majorVersion = none →
      meets_minimum_version jre = false) := by
  refine ⟨by decide, by decide, ?_, ?_⟩
  · intro v part hhead hparse
    unfold parse_major_version
    rw [hhead]
    dsimp only
    rw [hparse]
  · intro jre h
    unfold meets_minimum_version
    rw [h]
    rfl

/-- Witness for C7: the universally quantified parts applied at the concrete
version string `"banana"` and at a candidate with no major version. -/
theorem parse_major_version_spec_witness :
    parse_major_version "banana" = none ∧
    meets_minimum_version ⟨"unknown", "linux-x64", .path, none⟩ = false :=
  ⟨parse_major_version_spec.2.2.1 "banana" "banana".data (by decide) (by decide),
    parse_major_version_spec.2.2.2 ⟨"unknown", "linux-x64", .path, none⟩ rfl⟩

/-- A managed Java 8 runtime for the current platform whose probe succeeds. -/
def managedJre8 : InstalledJre := ⟨"1.8.0_301", "linux-x64", .managed, some 8⟩

/-- A `JAVA_HOME` installation at Java 8 — below the version floor. -/
def javaHomeJre8 : InstalledJre := ⟨"1.8.0_301", "linux-x64", .javaHome, some 8⟩

/-- A `JAVA_HOME` installation at Java 21 — meets the version floor. -/
def javaHomeJre21 : InstalledJre := ⟨"21.0.9", "linux-x64", .javaHome, some 21⟩

/-- A `PATH` installation at Java 21 — meets the version floor. -/
def pathJre21 : InstalledJre := ⟨"21.0.9", "linux-x64", .path, some 21⟩

/-- C3 counterexample: no managed runtime, `JAVA_HOME` holding a Java 8 that
fails the minimum version floor, and a Java 21 available via the search path.
The claim requires the search-path installation to be returned; the code
returns nothing, because `find_system_jre` commits to the `JAVA_HOME`
candidate before the floor is checked. -/
theorem find_active_jre_counterexample :
    find_active_jre ⟨"linux-x64", [], some javaHomeJre8, some pathJre21⟩ = none ∧
    meets_minimum_version javaHomeJre8 = false ∧
    meets_minimum_version pathJre21 = true := by
  decide

/-- C3 (amended): precedence is (1) the first managed installation matching
the current platform key whose probe succeeds, with no minimum-version floor;
(2) failing that, the single system candidate — the environment-declared root
when it yields an installation, otherwise the search path — which is returned
only if it meets the minimum version floor. An environment-declared
installation that fails the floor masks the search path: no search-path
fallback occurs. In particular a valid managed runtime beats a valid
environment-declared one. -/
theorem find_active_jre_precedence :
    (∀ (env : JreEnv) (me : InstalledJre × Bool),
      env.managed.find? (fun me => me.1.platform == env.platformKey && me.2) = some me →
      find_active_jre env = some me.1) ∧
    (∀ (env : JreEnv) (jh : InstalledJre),
      env.managed.find? (fun me => me.1.platform == env.platformKey && me.2) = none →
      env.javaHome = some jh →
      find_active_jre env = (if meets_minimum_version jh then some jh else none)) ∧
    (∀ (env : JreEnv) (jp : InstalledJre),
      env.managed.find? (fun me => me.1.platform == env.platformKey && me.2) = none →
      env.javaHome = none → env.onPath = some jp →
      find_active_jre env = (if meets_minimum_version jp then some jp else none)) := by
  refine ⟨?_, ?_, ?_⟩
  · intro env me hfind
    unfold find_active_jre
    rw [hfind]
  · intro env jh hfind hjh
    unfold find_active_jre find_system_jre
    rw [hfind, hjh]
  · intro env jp hfind hjh hjp
    unfold find_active_jre find_system_jre
    rw [hfind, hjh, hjp]

/-- Witness for the amended C3: with both a valid managed Java 8 runtime (no
floor applies) and a valid `JAVA_HOME` Java 21, the managed one is returned;
with only a below-floor `JAVA_HOME`, nothing is returned; with only an
above-floor search-path runtime, it is returned. -/
theorem find_active_jre_precedence_witness :
    find_active_jre ⟨"linux-x64", [(managedJre8, true)], some javaHomeJre21, none⟩ =
      some managedJre8 ∧
    find_active_jre ⟨"linux-x64", [], some javaHomeJre8, none⟩ = none ∧
    find_active_jre ⟨"linux-x64", [], none, some pathJre21⟩ = some pathJre21 := by
  refine ⟨find_active_jre_precedence.1 _ (managedJre8, true) (by decide), ?_, ?_⟩
  · rw [find_active_jre_precedence.2.1 _ javaHomeJre8 (by decide) rfl]
    decide
  · rw [find_active_jre_precedence.2.2 _ pathJre21 (by decide) rfl rfl]
    decide

/-! Exit codes and errors (src/error.rs) and the top-level dispatcher
(src/main.rs). -/

inductive ExitCode
  | success
  | generalError
  | configError
  | networkError
  | jreError
deriving DecidableEq

/-- The numeric value behind `#[repr(i32)]`. -/
def ExitCode.toInt : ExitCode → Int
  | .success => 0
  | .generalError => 1
  | .configError => 2
  | .networkError => 3
  | .jreError => 4

/-- Wrap an integer into the two's-complement `i32` range, as Rust release
builds do on overflow. -/
def wrapI32 (n : Int) : Int :=
  (n + 2 ^ 31) % 2 ^ 32 - 2 ^ 31

/-- `ExitCode::jvm_passthrough`: a zero delegated exit stays zero; a non-zero
one is remapped through `100 + code.abs().min(155)` in `i32` arithmetic.
`code.abs()` is the `i32` absolute value, which overflows at `i32::MIN`: in
release builds it wraps back to `i32::MIN` (debug builds panic); the wrap is
modelled by `wrapI32`, and `min` is the signed comparison. The subsequent
`100 + _` stays in range for every `i32` input. -/
def jvm_passthrough (code : Int) : Int :=
  if code = 0 then 0 else 100 + min (wrapI32 |code|) 155

/-- Wrapping is the identity on the non-negative half of the `i32` range. -/
theorem wrapI32_eq_self (n : Int) (h0 : 0 ≤ n) (h1 : n < 2 ^ 31) : wrapI32 n = n := by
  unfold wrapI32
  have h : (n + 2 ^ 31) % 2 ^ 32 = n + 2 ^ 31 :=
    Int.emod_eq_of_lt (by omega) (by omega)
  omega

/-- The error variants of `KarateError`, with payloads elided where they do
not affect the exit-code mapping. -/
inductive KarateError
  | notBootstrapped
  | config (msg : String)
  | network (msg : String)
  | jre (msg : String)
  | jarNotFound (path : String)
  | pluginNotFound (name : String)
  | downloadFailed (msg : String)
  | checksumMismatch (file expected actual : String)
  | unsupportedPlatform (os arch : String)
  | io (msg : String)
  | other (msg : String)
deriving DecidableEq

/-- `KarateError::exit_code`: the per-kind mapping (config 2, network 3,
runtime 4, everything else 1). -/
def KarateError.exit_code : KarateError → ExitCode
  | .notBootstrapped => .configError
  | .config _ => .configError
  | .network _ => .networkError
  | .downloadFailed _ => .networkError
  | .jre _ => .jreError
  | _ => .generalError

/-- The tail of `main.rs::run`: a handler's `Ok(code)` is passed through, any
propagated error becomes the general error code 1. -/
def dispatchResult (result : Except KarateError ExitCode) : ExitCode :=
  match result with
  | .ok code => code
  | .error _ => .generalError

/-- C9 counterexample: at the delegated exit code `i32::MIN` — reachable on
the platform whose exit statuses span the full 32-bit range — the claim
fails: `i32::abs` wraps (release semantics), so the remapped value is
`100 - 2^31`, which is neither `100 + min(|c|, 155)` (that would be 255) nor
inside `101..255`. -/
theorem jvm_passthrough_counterexample :
    jvm_passthrough (-(2 ^ 31)) = 100 - 2 ^ 31 ∧
    jvm_passthrough (-(2 ^ 31)) ≠ 100 + min |(-(2 ^ 31) : Int)| 155 ∧
    ¬(101 ≤ jvm_passthrough (-(2 ^ 31)) ∧ jvm_passthrough (-(2 ^ 31)) ≤ 255) := by
  decide

/-- C9 (amended): a delegated exit of 0 maps to 0; any non-zero `i32` exit
`c` other than `i32::MIN` maps to `100 + min(|c|, 155)`, which lies in
`101..255` and is therefore disjoint from the tool's own codes `0..4`; at
`i32::MIN` itself the wrapping absolute value yields `100 - 2^31`, outside
the 0..255 range. -/
theorem jvm_passthrough_spec :
    (jvm_passthrough 0 = 0) ∧
    (∀ c : Int, -(2 ^ 31) ≤ c → c < 2 ^ 31 → c ≠ 0 → c ≠ -(2 ^ 31) →
      jvm_passthrough c = 100 + min |c| 155 ∧
      101 ≤ jvm_passthrough c ∧ jvm_passthrough c ≤ 255) ∧
    (jvm_passthrough (-(2 ^ 31)) = 100 - 2 ^ 31) := by
  refine ⟨rfl, ?_, by decide⟩
  intro c hlo hhi hne hmin
  have habs0 : 0 ≤ |c| := abs_nonneg c
  have habs1 : |c| < 2 ^ 31 := by
    rw [abs_lt]
    constructor <;> omega
  have habspos : 1 ≤ |c| := by
    have := abs_pos.mpr hne
    omega
  unfold jvm_passthrough
  rw [if_neg hne, wrapI32_eq_self _ habs0 habs1]
  refine ⟨rfl, ?_, ?_⟩
  · have h1 : (1 : Int) ≤ min |c| 155 := le_min habspos (by norm_num)
    linarith
  · have h2 : min |c| 155 ≤ (155 : Int) := min_le_right _ _
    linarith

/-- Witness for the amended C9: the delegated exit code 7 is an `i32` other
than `i32::MIN` and is remapped to 107, inside `101..255`. -/
theorem jvm_passthrough_spec_witness :
    jvm_passthrough 7 = 100 + min |(7 : Int)| 155 ∧
    101 ≤ jvm_passthrough 7 ∧ jvm_passthrough 7 ≤ 255 :=
  jvm_passthrough_spec.2.1 7 (by decide) (by decide) (by decide) (by decide)

/-- C10: every error propagated to the dispatcher exits with the general
error code 1 irrespective of its kind — the per-kind mapping
`KarateError::exit_code` is not consulted on that path (witnessed by a kind
it maps elsewhere) — while the taxonomy codes surface only as successful
handler results, which pass through unchanged. -/
theorem dispatch_exit_code_spec :
    (∀ e : KarateError, (dispatchResult (.error e)).toInt = 1) ∧
    (∀ code : ExitCode, dispatchResult (.ok code) = code) ∧
    (∃ e : KarateError, e.exit_code ≠ .generalError ∧
      dispatchResult (.error e) = .generalError) := by
  refine ⟨fun e => rfl, fun code => rfl, ⟨.notBootstrapped, by decide, rfl⟩⟩

/-! The releases manifest consumed by setup and update. -/

/-- An artifact descriptor: download URL and expected checksum (the
self-update CLI artifact always carries one in the manifest consumed by
`update_cli_binary`). -/
structure Artifact where
  url : String
  sha256 : String
deriving DecidableEq

/-- Modelled from the spec: the type `ReleasesManifest` and its accessors
`get_latest_version`, `get_jar_download` and `get_platform_download` are not
under src/ (only their callers in src/commands/setup.rs and
src/commands/update.rs are). Per §4.3 and §6 of the spec, a manifest maps a
channel to its recorded "latest" version for each artifact key, each
(artifact, version) to a JAR descriptor, and each (artifact, version,
platform key) to a platform-specific descriptor; lookups are exact-match with
no fallback. -/
structure ReleasesManifest where
  latest : List ((String × String) × String)
  jarDownloads : List ((String × String) × (String × String))
  platformDownloads : List ((String × String × String) × Artifact)

/-- Modelled from the spec: `get_latest_version(artifact, channel)` returns
the channel's recorded "latest" version for the artifact, when present. -/
def ReleasesManifest.get_latest_version (m : ReleasesManifest)
    (artifact channel : String) : Option String :=
  (m.latest.find? (fun e => e.1 == (artifact, channel))).map (·.2)

/-- Modelled from the spec: `get_jar_download(artifact, version)` returns the
exact-match `(url, sha256)` pair, when present. -/
def ReleasesManifest.get_jar_download (m : ReleasesManifest)
    (artifact version : String) : Option (String × String) :=
  (m.jarDownloads.find? (fun e => e.1 == (artifact, version))).map (·.2)

/-- Modelled from the spec: `get_platform_download(artifact, version,
platform)` returns the platform-specific artifact descriptor, when present. -/
def ReleasesManifest.get_platform_download (m : ReleasesManifest)
    (artifact version platformKey : String) : Option Artifact :=
  (m.platformDownloads.find? (fun e => e.1 == (artifact, version, platformKey))).map (·.2)

/-- Version resolution inside `download_karate_jar`
(src/commands/setup.rs): the command-line override wins outright; otherwise a
configuration pin (any configured value other than `"latest"`) wins; otherwise
the channel's recorded latest is used, its absence being an error. -/
def resolveKarateVersion (m : ReleasesManifest) (configKarateVersion : String)
    (versionOverride : Option String) (channel : String) : Except Unit String :=
  match versionOverride with
  | some v => .ok v
  | none =>
    if configKarateVersion ≠ "latest" then .ok configKarateVersion
    else
      match m.get_latest_version "karate" channel with
      | some v => .ok v
      | none => .error ()

/-- C8: with no override the channel's recorded "latest" is returned; an
explicit override — the command-line version flag, which takes precedence, or
otherwise a version pinned in configuration — is returned regardless of the
channel's "latest". -/
theorem resolve_version_spec :
    (∀ (m : ReleasesManifest) (channel latest : String),
      m.get_latest_version "karate" channel = some latest →
      resolveKarateVersion m "latest" none channel = .ok latest) ∧
    (∀ (m : ReleasesManifest) (cfg channel : String) (v : String),
      resolveKarateVersion m cfg (some v) channel = .ok v) ∧
    (∀ (m : ReleasesManifest) (cfg channel : String),
      cfg ≠ "latest" →
      resolveKarateVersion m cfg none channel = .ok cfg) := by
  refine ⟨?_, ?_, ?_⟩
  · intro m channel latest hlatest
    unfold resolveKarateVersion
    rw [if_neg (by simp)]
    rw [hlatest]
  · intro m cfg channel v
    rfl
  · intro m cfg channel hcfg
    unfold resolveKarateVersion
    rw [if_pos hcfg]

/-- A concrete manifest whose stable channel records latest `"2.0.0"`. -/
def manifest200 : ReleasesManifest :=
  ⟨[(("karate", "stable"), "2.0.0")], [], []⟩

/-- Witness for C8: with latest `"2.0.0"` and no override the resolver
returns `"2.0.0"`; a command-line override `"1.9.5"` and a configuration pin
`"1.9.5"` are each returned regardless of "latest". -/
theorem resolve_version_spec_witness :
    resolveKarateVersion manifest200 "latest" none "stable" = .ok "2.0.0" ∧
    resolveKarateVersion manifest200 "latest" (some "1.9.5") "stable" = .ok "1.9.5" ∧
    resolveKarateVersion manifest200 "1.9.5" none "stable" = .ok "1.9.5" :=
  ⟨resolve_version_spec.1 manifest200 "stable" "2.0.0" (by decide),
    resolve_version_spec.2.1 manifest200 "latest" "stable" "1.9.5",
    resolve_version_spec.2.2 manifest200 "1.9.5" "stable" (by decide)⟩

/-! Self-update and component update (src/commands/update.rs). -/

inductive OsM
  | macos
  | linux
  | windows
deriving DecidableEq

inductive UpdError
  | noArtifact
  | download (e : DlError)
  | archiveMissing
  | extractFailed
  | binaryNotFound
  | backupFailed
  | swapFailed
  | manifestUnavailable
deriving DecidableEq

/-- Unpack decoded archive entries under a destination directory (the common
effect of `extract_tar_gz`/`extract_zip` on a successfully decoded archive;
a failed decode writes nothing in this model). -/
def extractEntries (fs : Fs) (destDir : Path) (entries : List (String × Content)) : Fs :=
  entries.foldl (fun acc e => acc.insert (destDir ++ "/" ++ e.1) e.2) fs

/-- Whether `p` is exactly `dir/<sub>/<name>` for a single nonempty component
`<sub>` — the one-level-deep probe of `find_binary_in_dir`. -/
def isOneLevelNested (dir name p : Path) : Bool :=
  let pre := (dir ++ "/").data
  startsWith pre p.data &&
    (let rest := p.data.drop pre.length
     let sub := rest.takeWhile (fun c => c != '/')
     !(sub.isEmpty) && rest.drop sub.length = '/' :: name.data)

/-- `find_binary_in_dir`: the binary at the top level of the extracted
directory, else the first entry one level deep. -/
def findBinaryInDir (fs : Fs) (dir : Path) (binaryName : String) : Option Path :=
  if fs.lookup (dir ++ "/" ++ binaryName) ≠ none then some (dir ++ "/" ++ binaryName)
  else (fs.files.find? (fun e => isOneLevelNested dir binaryName e.1)).map (·.1)

/-- Environment of one self-update attempt: the digest oracle, the archive
download response, the archive decoding oracle, and the fault state of the
two swap strategies (`fs::rename`, which fails across devices, and the
fallback `fs::copy`). -/
structure UpdEnv where
  sha : Content → Content
  resp : HttpResponse
  decode : Content → Option (List (String × Content))
  swapRenameOk : Bool
  copyOk : Bool

def cliArchiveExt (os : OsM) : String :=
  if os = .windows then "zip" else "tar.gz"

def cliArchivePath (cacheDir : Path) (version : String) (os : OsM) : Path :=
  cacheDir ++ "/karate-cli-" ++ version ++ "." ++ cliArchiveExt os

def cliExtractDir (cacheDir : Path) (version : String) : Path :=
  cacheDir ++ "/karate-cli-" ++ version ++ "-extract"

def cliBinaryName (os : OsM) : String :=
  if os = .windows then "karate.exe" else "karate"

/-- The `SwapIn` step of `update_cli_binary`: move the staged binary into the
now-vacated live path with `fs::rename` (which may fail across devices),
falling back to a byte copy (which may fail on I/O); `none` when both fail,
leaving the filesystem unchanged. -/
def attemptSwap (env : UpdEnv) (newBinary exe : Path) (fs : Fs) : Option Fs :=
  let renamed : Option Fs :=
    if env.swapRenameOk then
      match fs.rename newBinary exe with
      | .ok fs => some fs
      | .error _ => none
    else none
  match renamed with
  | some fs => some fs
  | none =>
    if env.copyOk then
      match fs.lookup newBinary with
      | some c => some (fs.insert exe c)
      | none => none
    else none

/-- Model of `update_cli_binary`: resolve the platform artifact, download the
archive with checksum verification, clear and repopulate the extraction
staging directory, locate the new binary, back the live executable up to the
`.old` sibling, swap the staged binary in — renaming the backup back into
place on swap failure before propagating the error — and clean up, removing
the backup immediately only off Windows. POSIX mode bits are outside the
model, so `set_permissions` has no observable effect here. -/
def updateCliBinary (env : UpdEnv) (os : OsM) (cacheDir exe : Path)
    (version : String) (artifact : Option Artifact) (fs : Fs) :
    Except UpdError Unit × Fs :=
  match artifact with
  | none => (.error .noArtifact, fs)
  | some art =>
    let archivePath := cliArchivePath cacheDir version os
    match downloadFile env.sha env.resp archivePath (some art.sha256) fs with
    | (.error e, fs) => (.error (.download e), fs)
    | (.ok _, fs) =>
      let extractDir := cliExtractDir cacheDir version
      let fs := fs.removeDir extractDir
      match fs.lookup archivePath with
      | none => (.error .archiveMissing, fs)
      | some archive =>
        match env.decode archive with
        | none => (.error .extractFailed, fs)
        | some entries =>
          let fs := extractEntries fs extractDir entries
          match findBinaryInDir fs extractDir (cliBinaryName os) with
          | none => (.error .binaryNotFound, fs)
          | some newBinary =>
            let backupPath := withExt exe "old"
            let fs := fs.remove backupPath
            match fs.rename exe backupPath with
            | .error _ => (.error .backupFailed, fs)
            | .ok fs =>
              match attemptSwap env newBinary exe fs with
              | none =>
                let fs :=
                  match fs.rename backupPath exe with
                  | .ok fs => fs
                  | .error _ => fs
                (.error .swapFailed, fs)
              | some fs =>
                let fs := fs.remove archivePath
                let fs := fs.removeDir extractDir
                let fs := if os = .windows then fs else fs.remove backupPath
                (.ok (), fs)

/-- `cleanup_old_binary`: remove any stale `.old` backup next to the live
executable. -/
def cleanup_old_binary (fs : Fs) (exe : Path) : Fs :=
  fs.remove (withExt exe "old")

/-- The valid `--item` names of the update command. -/
def VALID_UPDATE_ITEMS : List String := ["jar", "jre", "cli"]

structure UpdateArgs where
  all : Bool
  item : Option String
  channel : Option String

/-- Whether `update::run` reaches its `cleanup_old_binary` call: only the
item-name validation and the managed-directory creation precede it. -/
def updateRunReachesCleanup (args : UpdateArgs) (ensureDirsOk : Bool) : Bool :=
  (match args.all, args.item with
   | false, some item => VALID_UPDATE_ITEMS.contains (asciiLower item)
   | _, _ => true) && ensureDirsOk

/-- The command set of src/cli.rs; the `update` command carries its
arguments, the others need none for this development. -/
inductive Command
  | setup
  | update (args : UpdateArgs)
  | config
  | jre
  | ext
  | doctor
  | version
  | external

/-- Whether one invocation of the tool runs the stale-backup cleanup: the
dispatcher in src/main.rs routes each command to its handler, and
`cleanup_old_binary` is private to src/commands/update.rs with its only call
inside `update::run`; no other handler references it. -/
def invocationRunsCleanup (cmd : Command) (ensureDirsOk : Bool) : Bool :=
  match cmd with
  | .update args => updateRunReachesCleanup args ensureDirsOk
  | _ => false

/-- Whether `pat` occurs contiguously in the list. -/
def containsSeq (pat : List Char) : List Char → Bool
  | [] => startsWith pat []
  | c :: rest => startsWith pat (c :: rest) || containsSeq pat rest

/-- The deletion filter at the head of `update_karate_jar`: a file directly
inside `dist` with extension `jar`, name starting `karate-` and not
containing `robot`. -/
def isOldKarateJar (distDir : Path) (p : Path) : Bool :=
  underDir distDir p &&
    (let name := p.data.drop (distDir ++ "/").data.length
     !(name.contains '/') &&
     startsWith "karate-".data name &&
     startsWith ".jar".data.reverse name.reverse &&
     !(containsSeq "robot".data name))

/-- The `remove_file` loop over `read_dir(dist)` at the head of
`update_karate_jar`. -/
def removeOldJars (fs : Fs) (distDir : Path) : Fs :=
  ⟨fs.files.filter (fun e => !(isOldKarateJar distDir e.1))⟩

/-- Model of `update_karate_jar`: fetch the manifest, resolve the channel's
latest version and its download descriptor, delete the previously installed
JAR(s), then download the new one with checksum verification. -/
def updateKarateJar (sha : Content → Content) (fetch : Except Unit ReleasesManifest)
    (resp : HttpResponse) (channel : String) (distDir : Path) (fs : Fs) :
    Except UpdError Unit × Fs :=
  match fetch with
  | .error _ => (.error .manifestUnavailable, fs)
  | .ok m =>
    match m.get_latest_version "karate" channel with
    | none => (.error .noArtifact, fs)
    | some version =>
      match m.get_jar_download "karate" version with
      | none => (.error .noArtifact, fs)
      | some us =>
        let fs := removeOldJars fs distDir
        let dest := distDir ++ "/karate-" ++ version ++ ".jar"
        match downloadFile sha resp dest (some us.2) fs with
        | (.error e, fs) => (.error (.download e), fs)
        | (.ok _, fs) => (.ok (), fs)

/-- JustJ JRE download info resolved from the JustJ manifest
(src/download.rs). -/
structure JustJInfo where
  download_url : String
  version_label : String

def jreArchivePath (cacheDir : Path) (label : String) : Path :=
  cacheDir ++ "/jre-" ++ label ++ ".tar.gz"

/-- A path inside a subdirectory of the managed JRE root — what the
`remove_dir_all` loop over `read_dir(jre)` in `update_jre` deletes. -/
def inJreSubdir (jreDir p : Path) : Bool :=
  underDir jreDir p && ((p.data.drop (jreDir ++ "/").data.length).contains '/')

def removeJreSubdirs (fs : Fs) (jreDir : Path) : Fs :=
  ⟨fs.files.filter (fun e => !(inJreSubdir jreDir e.1))⟩

/-- Model of `update_jre`: resolve the JustJ artifact, download it into the
cache with no checksum, delete the previous managed JRE directories, extract
the archive into the new version-labelled directory, and remove the archive. -/
def updateJre (sha : Content → Content) (resolve : Except Unit JustJInfo)
    (resp : HttpResponse) (decode : Content → Option (List (String × Content)))
    (cacheDir jreDir : Path) (fs : Fs) : Except UpdError Unit × Fs :=
  match resolve with
  | .error _ => (.error .manifestUnavailable, fs)
  | .ok info =>
    let archivePath := jreArchivePath cacheDir info.version_label
    match downloadFile sha resp archivePath none fs with
    | (.error e, fs) => (.error (.download e), fs)
    | (.ok _, fs) =>
      let fs := removeJreSubdirs fs jreDir
      let newDir := jreDir ++ "/" ++ info.version_label
      match fs.lookup archivePath with
      | none => (.error .archiveMissing, fs)
      | some archive =>
        match decode archive with
        | none => (.error .extractFailed, fs)
        | some entries =>
          let fs := extractEntries fs newDir entries
          let fs := fs.remove archivePath
          (.ok (), fs)

/-- Model of `update::run` restricted to `--item cli` (non-interactive):
clean up the stale backup, fetch the manifest, read the channel's latest
CLI version, compare it for equality with the embedded launcher version, and
either return success directly or run the binary replacement. -/
def updateRunCliOnly (env : UpdEnv) (os : OsM)
    (installedVersion channel platformKey : String) (cacheDir exe : Path)
    (fetch : Except Unit ReleasesManifest) (fs : Fs) :
    Except UpdError ExitCode × Fs :=
  let fs := cleanup_old_binary fs exe
  match fetch with
  | .error _ => (.error .manifestUnavailable, fs)
  | .ok m =>
    match m.get_latest_version "karate-cli" channel with
    | none => (.error .noArtifact, fs)
    | some latest =>
      if installedVersion = latest then (.ok .success, fs)
      else
        match updateCliBinary env os cacheDir exe latest
          (m.get_platform_download "karate-cli" latest platformKey) fs with
        | (.error e, fs) => (.error e, fs)
        | (.ok _, fs) => (.ok .success, fs)

theorem extractEntries_frame (d q : Path) (h : underDir d q = false) :
    ∀ (entries : List (String × Content)) (fs : Fs),
      (extractEntries fs d entries).lookup q = fs.lookup q := by
  intro entries
  induction entries with
  | nil => intro fs; rfl
  | cons e rest ih =>
    intro fs
    unfold extractEntries at ih ⊢
    simp only [List.foldl]
    rw [ih]
    apply lookup_insert_ne
    intro hq
    rw [hq, underDir_append] at h
    exact Bool.noConfusion h

theorem findBinaryInDir_underDir (fs : Fs) (dir : Path) (name : String) (b : Path)
    (h : findBinaryInDir fs dir name = some b) : underDir dir b = true := by
  unfold findBinaryInDir at h
  by_cases htop : fs.lookup (dir ++ "/" ++ name) ≠ none
  · rw [if_pos htop] at h
    injection h with h
    rw [← h]
    exact underDir_append dir name
  · rw [if_neg htop] at h
    rcases Option.map_eq_some'.mp h with ⟨entry, hfind, hb⟩
    have hp := List.find?_some hfind
    rw [hb] at hp
    unfold isOneLevelNested at hp
    rw [Bool.and_eq_true] at hp
    unfold underDir
    exact hp.1

/-- A successful rename exposes its source content and resulting state. -/
theorem rename_ok (fs fs' : Fs) (src dst : Path)
    (h : fs.rename src dst = .ok fs') :
    ∃ c, fs.lookup src = some c ∧ fs' = (fs.remove src).insert dst c := by
  unfold Fs.rename at h
  cases hc : fs.lookup src with
  | none => rw [hc] at h; exact absurd h (by simp)
  | some c =>
    rw [hc] at h
    injection h with h
    exact ⟨c, rfl, h.symm⟩

/-- A swap that reports success placed some content at the live path. -/
theorem attemptSwap_some (env : UpdEnv) (newBinary exe : Path) (fs fs' : Fs)
    (h : attemptSwap env newBinary exe fs = some fs') :
    ∃ c, fs'.lookup exe = some c := by
  unfold attemptSwap at h
  by_cases hr : env.swapRenameOk
  · rw [if_pos hr] at h
    cases hren : fs.rename newBinary exe with
    | ok fs2 =>
      rw [hren] at h
      injection h with h
      rcases rename_ok fs fs2 newBinary exe hren with ⟨c, _, hfs2⟩
      refine ⟨c, ?_⟩
      rw [← h, hfs2]
      exact lookup_insert_self _ _ _
    | error u =>
      rw [hren] at h
      by_cases hcp : env.copyOk
      · rw [if_pos hcp] at h
        cases hlk : fs.lookup newBinary with
        | none => rw [hlk] at h; exact absurd h (by simp)
        | some c =>
          rw [hlk] at h
          injection h with h
          refine ⟨c, ?_⟩
          rw [← h]
          exact lookup_insert_self _ _ _
      · rw [if_neg hcp] at h
        exact absurd h (by simp)
  · rw [if_neg hr] at h
    by_cases hcp : env.copyOk
    · rw [if_pos hcp] at h
      cases hlk : fs.lookup newBinary with
      | none => rw [hlk] at h; exact absurd h (by simp)
      | some c =>
        rw [hlk] at h
        injection h with h
        refine ⟨c, ?_⟩
        rw [← h]
        exact lookup_insert_self _ _ _
    · rw [if_neg hcp] at h
      exact absurd h (by simp)

/-- C2: provided the live executable exists and lies outside the cache
paths of this update (it is not the downloaded archive, its temporary
sibling, or inside the extraction directory, and its `.old` sibling is a
distinct path), `update_cli_binary` never leaves the live path absent: every
failure — in particular any failure before the backup step and a swap-in
failure after it, which is rolled back — returns with the original bytes at
the live path, and success returns with the live path populated. -/
theorem update_cli_binary_safety
    (env : UpdEnv) (os : OsM) (cacheDir exe : Path) (version : String)
    (artifact : Option Artifact) (fs : Fs) (orig : Content)
    (hexe : fs.lookup exe = some orig)
    (hold : exe ≠ withExt exe "old")
    (harc : exe ≠ cliArchivePath cacheDir version os)
    (htmp : exe ≠ withExt (cliArchivePath cacheDir version os) "tmp")
    (hext : underDir (cliExtractDir cacheDir version) exe = false) :
    (∀ e : UpdError,
      (updateCliBinary env os cacheDir exe version artifact fs).1 = .error e →
      (updateCliBinary env os cacheDir exe version artifact fs).2.lookup exe = some orig) ∧
    (updateCliBinary env os cacheDir exe version artifact fs).2.lookup exe ≠ none := by
  have main :
      (updateCliBinary env os cacheDir exe version artifact fs).2.lookup exe = some orig ∨
      ((updateCliBinary env os cacheDir exe version artifact fs).1 = .ok () ∧
        ∃ c, (updateCliBinary env os cacheDir exe version artifact fs).2.lookup exe = some c) := by
    unfold updateCliBinary
    cases artifact with
    | none => left; exact hexe
    | some art =>
      dsimp only
      rcases hd : downloadFile env.sha env.resp (cliArchivePath cacheDir version os)
        (some art.sha256) fs with ⟨r1, fs1⟩
      have hf1 : fs1.lookup exe = some orig := by
        have hfr := downloadFile_frame env.sha env.resp (cliArchivePath cacheDir version os)
          (some art.sha256) fs exe harc htmp
        rw [hd] at hfr
        exact hfr.trans hexe
      cases r1 with
      | error e => left; exact hf1
      | ok u =>
        dsimp only
        have hf2 : (fs1.removeDir (cliExtractDir cacheDir version)).lookup exe = some orig := by
          rw [lookup_removeDir_ne fs1 _ exe hext]; exact hf1
        cases harch : (fs1.removeDir (cliExtractDir cacheDir version)).lookup
            (cliArchivePath cacheDir version os) with
        | none => left; exact hf2
        | some archive =>
          dsimp only
          cases hdec : env.decode archive with
          | none => left; exact hf2
          | some entries =>
            dsimp only
            have hf3 : (extractEntries (fs1.removeDir (cliExtractDir cacheDir version))
                (cliExtractDir cacheDir version) entries).lookup exe = some orig := by
              rw [extractEntries_frame _ exe hext]; exact hf2
            cases hfind : findBinaryInDir (extractEntries
                (fs1.removeDir (cliExtractDir cacheDir version))
                (cliExtractDir cacheDir version) entries)
                (cliExtractDir cacheDir version) (cliBinaryName os) with
            | none => left; exact hf3
            | some newBinary =>
              dsimp only
              have hf4 : ((extractEntries (fs1.removeDir (cliExtractDir cacheDir version))
                  (cliExtractDir cacheDir version) entries).remove
                  (withExt exe "old")).lookup exe = some orig := by
                rw [lookup_remove_ne _ _ _ hold]; exact hf3
              cases hren : ((extractEntries (fs1.removeDir (cliExtractDir cacheDir version))
                  (cliExtractDir cacheDir version) entries).remove
                  (withExt exe "old")).rename exe (withExt exe "old") with
              | error u2 => left; exact hf4
              | ok fs5 =>
                dsimp only
                rcases rename_ok _ fs5 exe (withExt exe "old") hren with ⟨c0, hc0, hfs5⟩
                have hco : c0 = orig := by
                  rw [hf4] at hc0
                  injection hc0 with hval
                  exact hval.symm
                have hB : fs5.lookup (withExt exe "old") = some orig := by
                  rw [hfs5, lookup_insert_self, hco]
                cases hsw : attemptSwap env newBinary exe fs5 with
                | none =>
                  dsimp only
                  cases hroll : fs5.rename (withExt exe "old") exe with
                  | ok fs6 =>
                    rcases rename_ok fs5 fs6 (withExt exe "old") exe hroll with ⟨c1, hc1, hfs6⟩
                    have hc1o : c1 = orig := by
                      rw [hB] at hc1
                      injection hc1 with hval
                      exact hval.symm
                    left
                    rw [hfs6, lookup_insert_self, hc1o]
                  | error u3 =>
                    exfalso
                    unfold Fs.rename at hroll
                    rw [hB] at hroll
                    exact absurd hroll (by simp)
                | some fs6 =>
                  dsimp only
                  rcases attemptSwap_some env newBinary exe fs5 fs6 hsw with ⟨c, hcex⟩
                  right
                  refine ⟨rfl, ⟨c, ?_⟩⟩
                  have h7 : ((fs6.remove (cliArchivePath cacheDir version os))).lookup exe
                      = some c := by
                    rw [lookup_remove_ne _ _ _ harc]; exact hcex
                  have h8 : (((fs6.remove (cliArchivePath cacheDir version os)).removeDir
                      (cliExtractDir cacheDir version))).lookup exe = some c := by
                    rw [lookup_removeDir_ne _ _ _ hext]; exact h7
                  by_cases hos : os = OsM.windows
                  · rw [if_pos hos]
                    exact h8
                  · rw [if_neg hos]
                    rw [lookup_remove_ne _ _ _ hold]
                    exact h8
  rcases main with h | ⟨hok, c, hc⟩
  · exact ⟨fun e _ => h, by rw [h]; simp⟩
  · refine ⟨fun e he => ?_, by rw [hc]; simp⟩
    rw [hok] at he
    exact absurd he (by simp)

/-- A concrete fault-free self-update environment: the digest oracle yields
byte 0, matching the manifest checksum `00`; the single-chunk archive body
`[5]` decodes to a top-level `karate` binary with bytes `[9]`. -/
def cliEnvW : UpdEnv :=
  ⟨fun _ => [0], ⟨200, [.ok [5]]⟩,
    fun c => if c = [5] then some [("karate", [9])] else none, true, true⟩

/-- Witness for C2: a fully successful concrete self-update run leaves the
live path populated. -/
theorem update_cli_binary_safety_witness :
    (updateCliBinary cliEnvW OsM.linux "/h/cache" "/u/bin/karate" "0.9.0"
      (some ⟨"u", "00"⟩) ⟨[("/u/bin/karate", [7])]⟩).2.lookup "/u/bin/karate" ≠ none :=
  (update_cli_binary_safety cliEnvW OsM.linux "/h/cache" "/u/bin/karate" "0.9.0"
    (some ⟨"u", "00"⟩) ⟨[("/u/bin/karate", [7])]⟩ [7] (by decide) (by decide)
    (by decide) (by decide) (by decide)).2

/-- The manifest used by the C4 counterexample: stable latest `2.0.0` with a
download descriptor. -/
def ce4Manifest : ReleasesManifest :=
  ⟨[(("karate", "stable"), "2.0.0")], [(("karate", "2.0.0"), ("u", "00"))], []⟩

/-- C4 counterexample: two failing update runs whose previously installed
artifact is gone on return. With `karate-1.0.0.jar` durably installed by an
earlier run, an update whose download fails (HTTP 500) returns the error with
the JAR already deleted — `update_karate_jar` removes the old JAR before the
download starts. With a JRE durably extracted by an earlier run, an update
whose archive fails to decode returns the extraction error with the previous
JRE already deleted — `update_jre` removes the old JRE directories between
the download and the extraction. -/
theorem update_artifact_removal_counterexample :
    ((updateKarateJar (fun _ => []) (.ok ce4Manifest) ⟨500, []⟩ "stable" "/h/dist"
      ⟨[("/h/dist/karate-1.0.0.jar", [1])]⟩).1 = .error (.download (.network 500)) ∧
    (updateKarateJar (fun _ => []) (.ok ce4Manifest) ⟨500, []⟩ "stable" "/h/dist"
      ⟨[("/h/dist/karate-1.0.0.jar", [1])]⟩).2.lookup "/h/dist/karate-1.0.0.jar" =
      none) ∧
    ((updateJre (fun _ => []) (.ok ⟨"u", "21.0.9-linux-x86_64"⟩) ⟨200, [.ok [5]]⟩
      (fun _ => none) "/h/cache" "/h/jre"
      ⟨[("/h/jre/17.0.12-linux-x64/bin/java", [2])]⟩).1 = .error .extractFailed ∧
    (updateJre (fun _ => []) (.ok ⟨"u", "21.0.9-linux-x86_64"⟩) ⟨200, [.ok [5]]⟩
      (fun _ => none) "/h/cache" "/h/jre"
      ⟨[("/h/jre/17.0.12-linux-x64/bin/java", [2])]⟩).2.lookup
      "/h/jre/17.0.12-linux-x64/bin/java" = none) := by
  decide

theorem lookupFs_filter_none (p : Path) (f : Path × Content → Bool)
    (hf : ∀ e : Path × Content, e.1 = p → f e = false) :
    ∀ l : List (Path × Content), lookupFs (l.filter f) p = none := by
  intro l
  induction l with
  | nil => rfl
  | cons e rest ih =>
    by_cases h : e.1 = p
    · have hb : f e = false := hf e h
      simp [List.filter, hb, ih]
    · by_cases hfe : f e = true
      · simp [List.filter, hfe, lookupFs, h, ih]
      · simp only [Bool.not_eq_true] at hfe
        simp [List.filter, hfe, ih]

/-- Every path inside a previous JRE subdirectory is gone after the deletion
loop of `update_jre`. -/
theorem lookup_removeJreSubdirs_in (fs : Fs) (jreDir p : Path)
    (h : inJreSubdir jreDir p = true) :
    (removeJreSubdirs fs jreDir).lookup p = none := by
  unfold removeJreSubdirs Fs.lookup
  exact lookupFs_filter_none p _ (fun e he => by simp [he, h]) fs.files

theorem lookup_removeJreSubdirs_ne (fs : Fs) (jreDir q : Path)
    (h : inJreSubdir jreDir q = false) :
    (removeJreSubdirs fs jreDir).lookup q = fs.lookup q := by
  unfold removeJreSubdirs Fs.lookup
  exact lookupFs_filter_ne q _ (fun e he => by simp [he, h]) fs.files

/-- C4 (amended): an artifact from an earlier run survives exactly the
failures that precede its removal step. `update_karate_jar` fails with the
filesystem untouched when the manifest fetch or the version lookup fails —
but it removes the previous JAR before downloading, so later failures leave
no JAR. `update_jre` leaves every file under the managed JRE root untouched
when the download fails — but it removes the previous JRE directories before
extraction, so a failed extraction returns with every file of the previous
JRE directories gone. -/
theorem update_failure_frame :
    (∀ (sha : Content → Content) (resp : HttpResponse) (channel : String)
        (distDir : Path) (fs : Fs),
      updateKarateJar sha (.error ()) resp channel distDir fs =
        (.error .manifestUnavailable, fs)) ∧
    (∀ (sha : Content → Content) (m : ReleasesManifest) (resp : HttpResponse)
        (channel : String) (distDir : Path) (fs : Fs),
      m.get_latest_version "karate" channel = none →
      updateKarateJar sha (.ok m) resp channel distDir fs = (.error .noArtifact, fs)) ∧
    (∀ (sha : Content → Content) (info : JustJInfo) (resp : HttpResponse)
        (decode : Content → Option (List (String × Content)))
        (cacheDir jreDir : Path) (fs : Fs) (e : DlError) (p : Path),
      (downloadFile sha resp (jreArchivePath cacheDir info.version_label) none fs).1 =
        .error e →
      underDir jreDir p = true →
      p ≠ jreArchivePath cacheDir info.version_label →
      p ≠ withExt (jreArchivePath cacheDir info.version_label) "tmp" →
      (updateJre sha (.ok info) resp decode cacheDir jreDir fs).1 = .error (.download e) ∧
      (updateJre sha (.ok info) resp decode cacheDir jreDir fs).2.lookup p =
        fs.lookup p) ∧
    (∀ (sha : Content → Content) (info : JustJInfo) (resp : HttpResponse)
        (decode : Content → Option (List (String × Content)))
        (cacheDir jreDir : Path) (fs : Fs) (p : Path),
      200 ≤ resp.status ∧ resp.status < 300 →
      chunksOk resp.chunks = true →
      decode (flatChunks resp.chunks) = none →
      inJreSubdir jreDir (jreArchivePath cacheDir info.version_label) = false →
      inJreSubdir jreDir p = true →
      (updateJre sha (.ok info) resp decode cacheDir jreDir fs).1 =
        .error .extractFailed ∧
      (updateJre sha (.ok info) resp decode cacheDir jreDir fs).2.lookup p =
        none) := by
  refine ⟨fun sha resp channel distDir fs => rfl, ?_, ?_, ?_⟩
  · intro sha m resp channel distDir fs hm
    unfold updateKarateJar
    dsimp only
    rw [hm]
  · intro sha info resp decode cacheDir jreDir fs e p hfail _hunder hne1 hne2
    have hfr := downloadFile_frame sha resp (jreArchivePath cacheDir info.version_label)
      none fs p hne1 hne2
    unfold updateJre
    dsimp only
    rcases hd : downloadFile sha resp (jreArchivePath cacheDir info.version_label)
      none fs with ⟨r1, fs1⟩
    rw [hd] at hfail hfr
    dsimp only at hfail hfr
    subst hfail
    exact ⟨rfl, hfr⟩
  · intro sha info resp decode cacheDir jreDir fs p hs hok hdec harc hp
    have hdl := download_nochecksum sha resp (jreArchivePath cacheDir info.version_label)
      fs hs hok
    have hdl2 : (downloadFile sha resp (jreArchivePath cacheDir info.version_label)
        none fs).2.lookup (jreArchivePath cacheDir info.version_label) =
        some (flatChunks resp.chunks) := by
      rw [hdl]
      exact lookup_insert_self _ _ _
    unfold updateJre
    dsimp only
    rcases hd : downloadFile sha resp (jreArchivePath cacheDir info.version_label)
      none fs with ⟨r1, fs1⟩
    rw [hd] at hdl hdl2
    have hr1 : r1 = .ok () := by
      have hfst := congrArg Prod.fst hdl
      simpa using hfst
    subst hr1
    dsimp only at hdl2
    dsimp only
    have harchlook : (removeJreSubdirs fs1 jreDir).lookup
        (jreArchivePath cacheDir info.version_label) = some (flatChunks resp.chunks) := by
      rw [lookup_removeJreSubdirs_ne _ _ _ harc]
      exact hdl2
    rw [harchlook]
    dsimp only
    rw [hdec]
    exact ⟨rfl, lookup_removeJreSubdirs_in _ _ _ hp⟩

/-- Witness for the amended C4: a failed manifest fetch and a failed version
lookup each leave a concrete dist state unchanged, a failed JRE download
leaves the previously extracted JRE file in place, and a failed JRE
extraction returns with the previous JRE file gone. -/
theorem update_failure_frame_witness :
    updateKarateJar (fun _ => []) (.error ()) ⟨200, []⟩ "stable" "/h/dist"
        ⟨[("/h/dist/karate-1.0.0.jar", [1])]⟩ =
      (.error .manifestUnavailable, ⟨[("/h/dist/karate-1.0.0.jar", [1])]⟩) ∧
    updateKarateJar (fun _ => []) (.ok ⟨[], [], []⟩) ⟨200, []⟩ "stable" "/h/dist"
        ⟨[("/h/dist/karate-1.0.0.jar", [1])]⟩ =
      (.error .noArtifact, ⟨[("/h/dist/karate-1.0.0.jar", [1])]⟩) ∧
    ((updateJre (fun _ => []) (.ok ⟨"u", "21.0.9-linux-x86_64"⟩) ⟨500, []⟩
        (fun _ => none) "/h/cache" "/h/jre"
        ⟨[("/h/jre/17.0.12-linux-x64/bin/java", [2])]⟩).1 =
      .error (.download (.network 500)) ∧
    (updateJre (fun _ => []) (.ok ⟨"u", "21.0.9-linux-x86_64"⟩) ⟨500, []⟩
        (fun _ => none) "/h/cache" "/h/jre"
        ⟨[("/h/jre/17.0.12-linux-x64/bin/java", [2])]⟩).2.lookup
        "/h/jre/17.0.12-linux-x64/bin/java" =
      (Fs.mk [("/h/jre/17.0.12-linux-x64/bin/java", [2])]).lookup
        "/h/jre/17.0.12-linux-x64/bin/java") ∧
    ((updateJre (fun _ => []) (.ok ⟨"u", "21.0.10-linux-x86_64"⟩) ⟨200, [.ok [6]]⟩
        (fun _ => none) "/h/cache" "/h/jre"
        ⟨[("/h/jre/17.0.12-linux-x64/bin/java", [3])]⟩).1 = .error .extractFailed ∧
    (updateJre (fun _ => []) (.ok ⟨"u", "21.0.10-linux-x86_64"⟩) ⟨200, [.ok [6]]⟩
        (fun _ => none) "/h/cache" "/h/jre"
        ⟨[("/h/jre/17.0.12-linux-x64/bin/java", [3])]⟩).2.lookup
        "/h/jre/17.0.12-linux-x64/bin/java" = none) :=
  ⟨update_failure_frame.1 (fun _ => []) ⟨200, []⟩ "stable" "/h/dist"
      ⟨[("/h/dist/karate-1.0.0.jar", [1])]⟩,
    update_failure_frame.2.1 (fun _ => []) ⟨[], [], []⟩ ⟨200, []⟩ "stable" "/h/dist"
      ⟨[("/h/dist/karate-1.0.0.jar", [1])]⟩ (by decide),
    update_failure_frame.2.2.1 (fun _ => []) ⟨"u", "21.0.9-linux-x86_64"⟩ ⟨500, []⟩
      (fun _ => none) "/h/cache" "/h/jre"
      ⟨[("/h/jre/17.0.12-linux-x64/bin/java", [2])]⟩ (.network 500)
      "/h/jre/17.0.12-linux-x64/bin/java"
      (by decide) (by decide) (by decide) (by decide),
    update_failure_frame.2.2.2 (fun _ => []) ⟨"u", "21.0.10-linux-x86_64"⟩
      ⟨200, [.ok [6]]⟩ (fun _ => none) "/h/cache" "/h/jre"
      ⟨[("/h/jre/17.0.12-linux-x64/bin/java", [3])]⟩
      "/h/jre/17.0.12-linux-x64/bin/java"
      (by decide) (by decide) (by decide) (by decide) (by decide)⟩

/-- The manifest used by the C5 counterexample: the stable channel's latest
CLI version is `0.9.0` — older than (in particular different from) the
installed `1.0.0`. -/
def ce5Manifest : ReleasesManifest :=
  ⟨[(("karate-cli", "stable"), "0.9.0")], [],
    [(("karate-cli", "0.9.0", "linux-x64"), ⟨"u", "00"⟩)]⟩

/-- C5 counterexample: the installed CLI version is `1.0.0` and the
manifest's latest is `0.9.0` — not newer — yet the run is not a no-op: it
downloads and swaps the older binary in, changing the live executable's
bytes from `[7]` to `[9]`. The has-update check is plain string inequality,
not a newer-than comparison. -/
theorem self_update_noop_counterexample :
    (updateRunCliOnly cliEnvW OsM.linux "1.0.0" "stable" "linux-x64" "/h/cache"
      "/u/bin/karate" (.ok ce5Manifest) ⟨[("/u/bin/karate", [7])]⟩).1 =
      .ok .success ∧
    (updateRunCliOnly cliEnvW OsM.linux "1.0.0" "stable" "linux-x64" "/h/cache"
      "/u/bin/karate" (.ok ce5Manifest) ⟨[("/u/bin/karate", [7])]⟩).2.lookup
      "/u/bin/karate" = some [9] ∧
    (Fs.mk [("/u/bin/karate", [7])]).lookup "/u/bin/karate" = some [7] := by
  decide

/-- C5 (amended): the self-update is a successful no-op exactly when the
channel's latest CLI version string equals the embedded build identifier:
nothing is downloaded and the only filesystem change is the unconditional
removal of a stale backup from a previous update. Any differing latest —
even an older one — triggers an update. -/
theorem self_update_noop (env : UpdEnv) (os : OsM)
    (installed channel platformKey : String) (cacheDir exe : Path)
    (m : ReleasesManifest) (fs : Fs)
    (hlatest : m.get_latest_version "karate-cli" channel = some installed) :
    updateRunCliOnly env os installed channel platformKey cacheDir exe (.ok m) fs =
      (.ok .success, cleanup_old_binary fs exe) := by
  unfold updateRunCliOnly
  dsimp only
  rw [hlatest]
  dsimp only
  rw [if_pos rfl]

/-- The manifest used by the C5 witness: latest equals the installed version. -/
def noopManifest : ReleasesManifest :=
  ⟨[(("karate-cli", "stable"), "1.0.0")], [], []⟩

/-- Witness for the amended C5: latest `1.0.0` equals installed `1.0.0`, so
the run succeeds having only removed the stale backup. -/
theorem self_update_noop_witness :
    updateRunCliOnly cliEnvW OsM.linux "1.0.0" "stable" "linux-x64" "/h/cache"
        "/u/bin/karate" (.ok noopManifest)
        ⟨[("/u/bin/karate", [7]), ("/u/bin/karate.old", [6])]⟩ =
      (.ok .success,
        cleanup_old_binary ⟨[("/u/bin/karate", [7]), ("/u/bin/karate.old", [6])]⟩
          "/u/bin/karate") :=
  self_update_noop cliEnvW OsM.linux "1.0.0" "stable" "linux-x64" "/h/cache"
    "/u/bin/karate" noopManifest
    ⟨[("/u/bin/karate", [7]), ("/u/bin/karate.old", [6])]⟩ (by decide)

/-- C6 counterexample: invocations running the version or doctor commands
never reach the stale-backup cleanup, contradicting the claim that it is
checked on every invocation of the tool independently of the command. -/
theorem cleanup_unconditional_counterexample :
    invocationRunsCleanup .version true = false ∧
    invocationRunsCleanup .doctor true = false := by
  decide

/-- C6 (amended): the stale backup is checked for and removed at the start of
every invocation of the update command that passes item-name validation and
managed-directory creation — regardless of which items are selected and
before any update availability is known — while no other command ever
performs this cleanup. -/
theorem cleanup_invocation :
    (∀ (item : String) (ch : Option String) (ok : Bool),
      VALID_UPDATE_ITEMS.contains (asciiLower item) = true →
      invocationRunsCleanup (.update ⟨false, some item, ch⟩) ok = ok) ∧
    (∀ (it ch : Option String) (ok : Bool),
      invocationRunsCleanup (.update ⟨true, it, ch⟩) ok = ok) ∧
    (∀ (ch : Option String) (ok : Bool),
      invocationRunsCleanup (.update ⟨false, none, ch⟩) ok = ok) ∧
    (∀ ok : Bool,
      invocationRunsCleanup .setup ok = false ∧
      invocationRunsCleanup .config ok = false ∧
      invocationRunsCleanup .jre ok = false ∧
      invocationRunsCleanup .ext ok = false ∧
      invocationRunsCleanup .doctor ok = false ∧
      invocationRunsCleanup .version ok = false ∧
      invocationRunsCleanup .external ok = false) := by
  refine ⟨?_, ?_, ?_, fun ok => ⟨rfl, rfl, rfl, rfl, rfl, rfl, rfl⟩⟩
  · intro item ch ok h
    unfold invocationRunsCleanup updateRunReachesCleanup
    dsimp only
    rw [h]
    exact Bool.true_and ok
  · intro it ch ok
    unfold invocationRunsCleanup updateRunReachesCleanup
    dsimp only
    exact Bool.true_and ok
  · intro ch ok
    unfold invocationRunsCleanup updateRunReachesCleanup
    dsimp only
    exact Bool.true_and ok

/-- Witness for the amended C6: an update invocation selecting only the `cli`
item reaches the cleanup. -/
theorem cleanup_invocation_witness :
    invocationRunsCleanup (.update ⟨false, some "cli", none⟩) true = true :=
  cleanup_invocation.1 "cli" none true (by decide)

end KarateCli
